import Mathlib

/-!
Shallow embedding of the `rjtools.util` concurrent test harness
(`src/rjtools/util/testing.py`, with the `Grep` and `JSONFilter`
expectation classes from `dgutil/testutil.py`), together with theorems
checking the specification's claims against it.

Python machine state (the module dictionary, the process-wide
stdout/stderr pair, the redirect lock) is embedded as explicit state
passing; raised Python exceptions are embedded as `Option`, with
`Option.none` marking an uncaught exception or a failed assertion.
-/

namespace RJTools

/-- Mirrors the Python class `TestResults` in `testing.py`: a record with
a `name`, an exit `code`, a `total` test count and a `failures` count.
Python integers are embedded as `Int`. -/
structure TestResults where
  name : String
  code : Int
  total : Int
  failures : Int
deriving Repr, DecidableEq

/-- Mirrors `TestResults.__init__`, which zeroes every counter. -/
def TestResults.init (packageName : String) : TestResults :=
  { name := packageName, code := 0, total := 0, failures := 0 }

/-- Mirrors `TestResults.add_success`: `self.total += 1`. -/
def TestResults.add_success (r : TestResults) : TestResults :=
  { r with total := r.total + 1 }

/-- Mirrors `TestResults.add_failure`: `self.code = 1`,
`self.total += 1`, `self.failures += 1`. -/
def TestResults.add_failure (r : TestResults) : TestResults :=
  { r with code := 1, total := r.total + 1, failures := r.failures + 1 }

/-- Python `max` over a nonempty list, seeded with the head element
(`max([x, ...])`). `summarize_results` only calls it on nonempty input,
exactly as the Python guards `max` behind `len(results) == 0`. -/
def pyMax (x : Int) (xs : List Int) : Int :=
  xs.foldl max x

/-- Mirrors `summarize_results(name, *results)` in `testing.py`: an
all-zero summary for zero children, otherwise the sums of the
children's `total` and `failures` and the `max` of their `code`s. -/
def summarize_results (name : String) (results : List TestResults) : TestResults :=
  let summary := TestResults.init name
  if results.length = 0 then
    { summary with total := 0, failures := 0, code := 0 }
  else
    { summary with
      total := (results.map TestResults.total).sum
      failures := (results.map TestResults.failures).sum
      code := match results.map TestResults.code with
              | [] => 0
              | c :: cs => pyMax c cs }

/-! String helpers mirroring the Python string operations the harness uses. -/

/-- Python `line.startswith(pre)` on character lists. -/
def listStartsWith : List Char → List Char → Bool
  | [], _ => true
  | _ :: _, [] => false
  | p :: ps, c :: cs => p = c && listStartsWith ps cs

/-- Python `needle in haystack` substring containment on character
lists. This is the spec's wording for the `Grep` check ("substring
containment at any position"); the source itself uses `re.search`. -/
def containsSub : List Char → List Char → Bool
  | needle, [] => listStartsWith needle []
  | needle, c :: cs => listStartsWith needle (c :: cs) || containsSub needle cs

/-- Python `s.startswith(pre)`. -/
def strStartsWith (s pre : String) : Bool :=
  listStartsWith pre.data s.data

/-- Python `s.removesuffix("\n")`: drops one trailing newline when
present, otherwise the identity. -/
def removesuffixNl (s : String) : String :=
  match s.data.getLast? with
  | some '\n' => String.mk s.data.dropLast
  | _ => s

/-- Python `text.splitlines(keepends=True)` for text whose only line
terminator is `"\n"` (the harness writes no `"\r"` terminators):
splits after every newline, keeping it, and keeps a trailing fragment
without a newline. -/
def splitLinesKeepEndsAux : List Char → List Char → List String
  | [], acc => if acc.isEmpty then [] else [String.mk acc.reverse]
  | c :: cs, acc =>
    if c = '\n' then String.mk (c :: acc).reverse :: splitLinesKeepEndsAux cs []
    else splitLinesKeepEndsAux cs (c :: acc)

def splitLinesKeepEnds (s : String) : List String :=
  splitLinesKeepEndsAux s.data []

/-- Mirrors `cull_debug_lines(lines, std)` in `testing.py`: lines
starting with `"DEBUG: "` are printed to the given real stream (second
component, in print order) and removed; the remaining lines are
concatenated into the returned text (first component). -/
def cull_debug_lines : List String → String × List String
  | [] => ("", [])
  | line :: rest =>
    let (out, dbgLines) := cull_debug_lines rest
    if strStartsWith line "DEBUG: " then (out, line :: dbgLines)
    else (line ++ out, dbgLines)

/-- Mirrors `cull_debug_text(text, std)` in `testing.py`:
`splitlines(keepends=True)` followed by `cull_debug_lines`. -/
def cull_debug_text (text : String) : String × List String :=
  cull_debug_lines (splitLinesKeepEnds text)

/-! Python values stored in a test module's dictionary. In-process test
functions are embedded as a `Body`: the text the call writes to the
(redirected) stdout and stderr, and whether it returns a value or
raises an exception of some class with some message. -/

mutual
inductive PyVal where
  | none
  | bool (b : Bool)
  | int (n : Int)
  | str (s : String)
  | listStr (xs : List String)
  | pairArgs (args : List String) (commands : String)
  | grep (search : String)
  | jsonFilter (remove : List String) (text : String)
  | func (body : Body)
deriving DecidableEq, Repr

inductive Body where
  | mk (printsOut : String) (printsErr : String) (outcome : BodyOutcome)
deriving DecidableEq, Repr

inductive BodyOutcome where
  | ret (v : PyVal)
  | exn (cls : String) (msg : String)
deriving DecidableEq, Repr
end

def Body.printsOut : Body → String
  | .mk o _ _ => o

def Body.printsErr : Body → String
  | .mk _ e _ => e

def Body.outcome : Body → BodyOutcome
  | .mk _ _ oc => oc

/-- Python `==` on the embedded value fragment. Python `bool` is an
`int` subtype, so `True == 1` and `False == 0`; values of unrelated
types compare unequal; `Grep`/`JSONFilter`/function objects have no
`__eq__` and compare by identity, so two distinct objects (the only
comparisons the harness can make between a module constant and a test
result) compare unequal. -/
def pyEq : PyVal → PyVal → Bool
  | .none, .none => true
  | .bool a, .bool b => a == b
  | .bool a, .int n => (if a then (1 : Int) else 0) == n
  | .int n, .bool a => n == (if a then (1 : Int) else 0)
  | .int a, .int b => a == b
  | .str a, .str b => a == b
  | .listStr a, .listStr b => a == b
  | .pairArgs a c, .pairArgs b d => a == b && c == d
  | _, _ => false

/-- Python truthiness (`bool(v)`) on the embedded value fragment. -/
def pyTruthy : PyVal → Bool
  | .none => false
  | .bool b => b
  | .int n => n != 0
  | .str s => s != ""
  | .listStr xs => !xs.isEmpty
  | .pairArgs _ _ => true
  | .grep _ => true
  | .jsonFilter _ _ => true
  | .func _ => true

/-- A test module: its `__name__` and its `__dict__`, embedded as an
association list in declaration order (Python dictionaries preserve
insertion order, which `run_module` relies on). -/
structure Module where
  name : String
  dict : List (String × PyVal)
deriving DecidableEq, Repr

/-- Python `name in mod.__dict__` / `mod.__dict__[name]`. -/
def lookupSym (mod : Module) (symName : String) : Option PyVal :=
  (mod.dict.find? (fun kv => kv.1 == symName)).map Prod.snd

/-- Python `mod.__dict__[name] = v` for an existing key: updates the
value in place, preserving the dictionary order. -/
def setSym (mod : Module) (symName : String) (v : PyVal) : Module :=
  { mod with dict := mod.dict.map (fun kv => if kv.1 == symName then (kv.1, v) else kv) }

/-! Model of `re.search` for the pattern fragment the harness's `Grep`
expectations use. The source (`check_output`) passes `Grep.search`
directly to `re.search`. The model covers patterns built from literal
characters and the `.` wildcard (one metacharacter); patterns using any
other regex metacharacter are outside the embedding. -/

/-- One pattern character against one subject character: `.` matches
any character except a newline (the source passes no `re.DOTALL`
flag, so Python's `.` never matches `"\n"`); a literal character
matches itself. -/
def reCharMatch (p c : Char) : Bool :=
  if p = '.' then c != '\n' else p = c

/-- The whole pattern matches at the start of the subject. -/
def reMatchHere : List Char → List Char → Bool
  | [], _ => true
  | _ :: _, [] => false
  | p :: ps, c :: cs => reCharMatch p c && reMatchHere ps cs

/-- The pattern matches starting at some position of the subject. -/
def reSearchFrom (pat : List Char) : List Char → Bool
  | [] => reMatchHere pat []
  | c :: cs => reMatchHere pat (c :: cs) || reSearchFrom pat cs

/-- Model of Python `re.search(pat, s) is not None` for patterns in the
literal-plus-`.` fragment. -/
def reSearch (pat s : String) : Bool :=
  reSearchFrom pat.data s.data

/-! Model of the JSON fragment the `JSONFilter` expectation uses:
finite values built from `null`, booleans, integers, strings without
escape-requiring characters, arrays and objects. Python `json.loads`
and `json.dumps(..., indent=2)` are embedded on this fragment. -/

inductive Json where
  | null
  | bool (b : Bool)
  | num (n : Int)
  | str (s : String)
  | arr (elems : List Json)
  | obj (members : List (String × Json))

/-! Mirrors `filterJSONRecursive(jsonObj, keysToRemove)` in
`dgutil/testutil.py`: in every (nested) object, entries whose key is in
the removal set are deleted and the remaining values are filtered
recursively; array elements are filtered recursively; other values are
unchanged. The Python deletes the keys first and then recurses over
the surviving entries, which the single pass here reproduces. -/
mutual
def filterJson (keys : List String) : Json → Json
  | .null => .null
  | .bool b => .bool b
  | .num n => .num n
  | .str s => .str s
  | .arr xs => .arr (filterJsonList keys xs)
  | .obj kvs => .obj (filterJsonMembers keys kvs)

def filterJsonList (keys : List String) : List Json → List Json
  | [] => []
  | j :: js => filterJson keys j :: filterJsonList keys js

def filterJsonMembers (keys : List String) : List (String × Json) → List (String × Json)
  | [] => []
  | (k, v) :: kvs =>
    if keys.contains k then filterJsonMembers keys kvs
    else (k, filterJson keys v) :: filterJsonMembers keys kvs
end

def jsonSpaces (n : Nat) : String := String.mk (List.replicate n ' ')

def hexDigitChar (n : Nat) : Char :=
  if n < 10 then Char.ofNat (48 + n) else Char.ofNat (87 + n)

/-- A `\uXXXX` escape with four lowercase hex digits, as Python's
`json.dumps` emits them. -/
def uEscape (n : Nat) : List Char :=
  ['\\', 'u', hexDigitChar (n / 4096 % 16), hexDigitChar (n / 256 % 16),
   hexDigitChar (n / 16 % 16), hexDigitChar (n % 16)]

/-- Mirrors the string escaping of Python `json.dumps` with its default
`ensure_ascii=True`: the two-character escapes for quote, backslash
and the control characters that have short forms; `\uXXXX` for every
other character outside `0x20..0x7E` (control characters, DEL and all
non-ASCII, astral characters as a surrogate pair); everything in
`0x20..0x7E` passed through raw (`/` is not escaped). -/
def escapeJsonChar (c : Char) : List Char :=
  if c = '"' then ['\\', '"']
  else if c = '\\' then ['\\', '\\']
  else if c = '\n' then ['\\', 'n']
  else if c = '\r' then ['\\', 'r']
  else if c = '\t' then ['\\', 't']
  else if c.toNat = 8 then ['\\', 'b']
  else if c.toNat = 12 then ['\\', 'f']
  else if 32 ≤ c.toNat ∧ c.toNat ≤ 126 then [c]
  else if c.toNat < 65536 then uEscape c.toNat
  else
    uEscape (55296 + (c.toNat - 65536) / 1024) ++
      uEscape (56320 + (c.toNat - 65536) % 1024)

def escapeJsonString (s : String) : String :=
  String.mk (s.data.foldr (fun c acc => escapeJsonChar c ++ acc) [])

/-! Mirrors Python `json.dumps(obj, indent=2)` on the embedded
fragment: 2-space-per-level indentation, items separated by `","` plus
a newline and indentation, object keys rendered as `"key": value`,
empty containers rendered without inner newlines, strings (keys
included) escaped per `escapeJsonChar`, integers via `repr`. -/
mutual
def dumpsIndent (level : Nat) : Json → String
  | .null => "null"
  | .bool b => if b then "true" else "false"
  | .num n => toString n
  | .str s => "\"" ++ escapeJsonString s ++ "\""
  | .arr [] => "[]"
  | .arr (x :: xs) =>
    "[\n" ++ dumpsArrItems level (x :: xs) ++ "\n" ++ jsonSpaces (2 * level) ++ "]"
  | .obj [] => "\x7b\x7d"
  | .obj (kv :: kvs) =>
    "\x7b\n" ++ dumpsObjMembers level (kv :: kvs) ++ "\n" ++ jsonSpaces (2 * level) ++ "\x7d"

def dumpsArrItems (level : Nat) : List Json → String
  | [] => ""
  | [x] => jsonSpaces (2 * (level + 1)) ++ dumpsIndent (level + 1) x
  | x :: y :: xs =>
    jsonSpaces (2 * (level + 1)) ++ dumpsIndent (level + 1) x ++ ",\n"
      ++ dumpsArrItems level (y :: xs)

def dumpsObjMembers (level : Nat) : List (String × Json) → String
  | [] => ""
  | [(k, v)] =>
    jsonSpaces (2 * (level + 1)) ++ "\"" ++ escapeJsonString k ++ "\": "
      ++ dumpsIndent (level + 1) v
  | (k, v) :: kv :: kvs =>
    jsonSpaces (2 * (level + 1)) ++ "\"" ++ escapeJsonString k ++ "\": "
      ++ dumpsIndent (level + 1) v ++ ",\n" ++ dumpsObjMembers level (kv :: kvs)
end

/-! Model of Python `json.loads`: a fueled recursive-descent reader
over the character list, mirroring Python's scanner (`py_scanstring`,
the `NUMBER_RE` token, strict control-character handling, dictionary
duplicate-key collapsing). The reader is three-valued: `.ok` and
`.error .malformed` are faithful (Python parses to the same value,
or raises `JSONDecodeError`), while `.error .outside` marks an input
leaving the modelled fragment — floats, exponents, the
`NaN`/`Infinity` constants and surrogate-range `\uXXXX` escapes
(which Python would parse into float values or surrogate code units
that the embedding does not represent). Theorems over this reader
are scoped by `jsonInFragment`, which excludes exactly the `.outside`
inputs. The fuel (one unit per nesting step, bounded by the input
length) only serves termination; it never runs out on inputs the
reader accepts. -/

inductive JsonPErr where
  | malformed
  | outside
deriving DecidableEq, Repr

def isJsonWs (c : Char) : Bool :=
  c = ' ' || c = '\t' || c = '\n' || c = '\r'

def skipWs : List Char → List Char
  | [] => []
  | c :: cs => if isJsonWs c then skipWs cs else c :: cs

def hexVal (c : Char) : Option Nat :=
  if '0' ≤ c ∧ c ≤ '9' then some (c.toNat - 48)
  else if 'a' ≤ c ∧ c ≤ 'f' then some (c.toNat - 87)
  else if 'A' ≤ c ∧ c ≤ 'F' then some (c.toNat - 55)
  else Option.none

/-- Reads the remainder of a string literal after the opening quote,
as Python's strict `py_scanstring` does: an unescaped quote ends the
literal; raw control characters (below `0x20`) are rejected; the
escapes `\" \\ \/ \b \f \n \r \t` and `\uXXXX` are decoded; an
invalid escape or unterminated literal is malformed. A `\uXXXX`
escape in the surrogate range leaves the fragment (Python decodes
surrogate pairs and even lone surrogates, which the embedding's
scalar characters cannot carry). -/
def parseStringChars (acc : List Char) : List Char → Except JsonPErr (String × List Char)
  | [] => .error .malformed
  | c :: cs =>
    if c = '"' then .ok (String.mk acc.reverse, cs)
    else if c = '\\' then
      match cs with
      | [] => .error .malformed
      | e :: cs2 =>
        if e = '"' then parseStringChars ('"' :: acc) cs2
        else if e = '\\' then parseStringChars ('\\' :: acc) cs2
        else if e = '/' then parseStringChars ('/' :: acc) cs2
        else if e = 'b' then parseStringChars (Char.ofNat 8 :: acc) cs2
        else if e = 'f' then parseStringChars (Char.ofNat 12 :: acc) cs2
        else if e = 'n' then parseStringChars ('\n' :: acc) cs2
        else if e = 'r' then parseStringChars ('\r' :: acc) cs2
        else if e = 't' then parseStringChars ('\t' :: acc) cs2
        else if e = 'u' then
          match cs2 with
          | h1 :: h2 :: h3 :: h4 :: cs3 =>
            (match hexVal h1, hexVal h2, hexVal h3, hexVal h4 with
             | some a, some b, some c2, some d =>
               let v := a * 4096 + b * 256 + c2 * 16 + d
               if 55296 ≤ v ∧ v ≤ 57343 then .error .outside
               else parseStringChars (Char.ofNat v :: acc) cs3
             | _, _, _, _ => .error .malformed)
          | _ => .error .malformed
        else .error .malformed
    else if c.toNat < 32 then .error .malformed
    else parseStringChars (c :: acc) cs

def takeDigits : List Char → List Char × List Char
  | [] => ([], [])
  | c :: cs =>
    if c.isDigit then
      let (ds, rest) := takeDigits cs
      (c :: ds, rest)
    else ([], c :: cs)

def digitsToNat (ds : List Char) : Nat :=
  ds.foldl (fun a c => a * 10 + (c.toNat - 48)) 0

/-- Reads the integer part of Python's JSON number token
(`-?(0|[1-9]\d*)`): a leading zero ends the digits after one
character, exactly like `NUMBER_RE`, so a leading-zero numeral such
as `007` yields `0` plus trailing garbage and fails through the same
delimiter/extra-data path as Python. -/
def parseDigitsToken : List Char → Except JsonPErr (Nat × List Char)
  | [] => .error .malformed
  | c :: cs =>
    if c = '0' then .ok (0, cs)
    else if c.isDigit then
      let (ds, rest) := takeDigits cs
      .ok (digitsToNat (c :: ds), rest)
    else .error .malformed

/-- Reads an integer literal. When the matched integer token is
followed by `.`, `e` or `E`, Python's `NUMBER_RE` would extend the
match into a float, which the embedding does not represent: the input
leaves the fragment. -/
def parseIntLit : List Char → Except JsonPErr (Json × List Char)
  | cs =>
    let signed := match cs with
      | '-' :: rest => (true, rest)
      | _ => (false, cs)
    match parseDigitsToken signed.2 with
    | .error e => .error e
    | .ok (n, rest) =>
      match rest with
      | c :: _ =>
        if c = '.' ∨ c = 'e' ∨ c = 'E' then .error .outside
        else .ok (.num (if signed.1 then -(n : Int) else (n : Int)), rest)
      | [] => .ok (.num (if signed.1 then -(n : Int) else (n : Int)), [])

/-- Python's dictionary update for one parsed object member: an
existing key keeps its (first-insertion) position and takes the new
value; a new key is appended. -/
def insertMember (acc : List (String × Json)) (k : String) (v : Json) :
    List (String × Json) :=
  if acc.any (fun kv => kv.1 == k) then
    acc.map (fun kv => if kv.1 == k then (k, v) else kv)
  else acc ++ [(k, v)]

/-- Collapses duplicate object keys the way Python's dict does while
`json.loads` inserts the parsed members in textual order. -/
def objFromMembers (kvs : List (String × Json)) : List (String × Json) :=
  kvs.foldl (fun acc kv => insertMember acc kv.1 kv.2) []

mutual
def parseValue : Nat → List Char → Except JsonPErr (Json × List Char)
  | 0, _ => .error .malformed
  | fuel + 1, cs =>
    match skipWs cs with
    | 'n' :: 'u' :: 'l' :: 'l' :: rest => .ok (.null, rest)
    | 't' :: 'r' :: 'u' :: 'e' :: rest => .ok (.bool true, rest)
    | 'f' :: 'a' :: 'l' :: 's' :: 'e' :: rest => .ok (.bool false, rest)
    | '"' :: rest =>
      (match parseStringChars [] rest with
       | .ok (s, rest2) => .ok (.str s, rest2)
       | .error e => .error e)
    | '[' :: rest =>
      (match skipWs rest with
       | ']' :: rest2 => .ok (.arr [], rest2)
       | _ =>
         match parseArrItems fuel rest with
         | .ok (xs, rest2) => .ok (.arr xs, rest2)
         | .error e => .error e)
    | '\x7b' :: rest =>
      (match skipWs rest with
       | '\x7d' :: rest2 => .ok (.obj [], rest2)
       | _ =>
         match parseObjMembers fuel rest with
         | .ok (kvs, rest2) => .ok (.obj (objFromMembers kvs), rest2)
         | .error e => .error e)
    | 'N' :: _ => .error .outside
    | 'I' :: _ => .error .outside
    | '-' :: 'I' :: _ => .error .outside
    | cs2 => parseIntLit cs2

def parseArrItems : Nat → List Char → Except JsonPErr (List Json × List Char)
  | 0, _ => .error .malformed
  | fuel + 1, cs =>
    match parseValue fuel cs with
    | .error e => .error e
    | .ok (j, rest) =>
      match skipWs rest with
      | ',' :: rest2 =>
        (match parseArrItems fuel rest2 with
         | .ok (js, rest3) => .ok (j :: js, rest3)
         | .error e => .error e)
      | ']' :: rest2 => .ok ([j], rest2)
      | _ => .error .malformed

def parseObjMembers : Nat → List Char → Except JsonPErr (List (String × Json) × List Char)
  | 0, _ => .error .malformed
  | fuel + 1, cs =>
    match skipWs cs with
    | '"' :: rest =>
      (match parseStringChars [] rest with
       | .error e => .error e
       | .ok (k, rest2) =>
         match skipWs rest2 with
         | ':' :: rest3 =>
           (match parseValue fuel rest3 with
            | .error e => .error e
            | .ok (v, rest4) =>
              match skipWs rest4 with
              | ',' :: rest5 =>
                (match parseObjMembers fuel rest5 with
                 | .ok (kvs, rest6) => .ok ((k, v) :: kvs, rest6)
                 | .error e => .error e)
              | '\x7d' :: rest5 => .ok ([(k, v)], rest5)
              | _ => .error .malformed)
         | _ => .error .malformed)
    | _ => .error .malformed
end

/-- The three-valued result of reading a whole document: leading
whitespace skipped, one value, trailing whitespace only (anything
else is Python's "Extra data" error). -/
def jsonLoadsE (s : String) : Except JsonPErr Json :=
  match parseValue (s.length + 1) s.data with
  | .ok (j, rest) => if (skipWs rest).isEmpty then .ok j else .error .malformed
  | .error e => .error e

/-- Model of `json.loads(s)`: `some` a parsed value, `Option.none` a
raised `json.JSONDecodeError`. Outside-fragment inputs also map to
`Option.none` here; every theorem about the `JSONFilter` branch is
scoped by `jsonInFragment`, under which `Option.none` is exactly a
raised decode error. -/
def jsonLoads (s : String) : Option Json :=
  match jsonLoadsE s with
  | .ok j => some j
  | .error _ => Option.none

/-- The modelled JSON fragment: the inputs on which the embedded
reader settles the document the same way Python's `json.loads` does —
parsed to the same value, or rejected with `JSONDecodeError`. -/
def jsonInFragment (s : String) : Bool :=
  match jsonLoadsE s with
  | .error .outside => false
  | _ => true

/-- Python `text.strip()`: leading and trailing whitespace removed. -/
def pyStrip (s : String) : String :=
  String.mk (((s.data.dropWhile isJsonWs).reverse.dropWhile isJsonWs).reverse)

/-- Mirrors `JSONFilter.__init__(remove, text)` in `dgutil/testutil.py`,
which stores the key set and `text.strip()`. -/
def mkJSONFilter (remove : List String) (text : String) : PyVal :=
  .jsonFilter remove (pyStrip text)

/-- Mirrors `JSONFilter.applyFilter(output)` in `dgutil/testutil.py`:
`json.loads`, then `filterJSONRecursive`, then
`json.dumps(..., indent=2)`; `Option.none` embeds the
`json.JSONDecodeError` that `check_output` catches. -/
def applyFilter (remove : List String) (output : String) : Option String :=
  (jsonLoads output).map (fun j => dumpsIndent 0 (filterJson remove j))

/-! The expectation matcher of `testing.py`. -/

/-- The four literal-comparison variants of `check_output`:
`idVariant` is the identity, `leadNlVariant` strips one trailing
newline from the actual output, `endNlVariant` adds one leading
newline, and `sandwichNlVariant` composes both. -/
def idVariant (out : String) : String := out

def leadNlVariant (out : String) : String := removesuffixNl out

def endNlVariant (out : String) : String := "\n" ++ out

def sandwichNlVariant (out : String) : String := leadNlVariant (endNlVariant out)

def checkVariants : List (String → String) :=
  [idVariant, leadNlVariant, endNlVariant, sandwichNlVariant]

/-- The variant loop of `check_output`: the check passes when
`cv(output) == expectedValue` for some variant `cv` (Python `==`, so a
non-string expected value matches no variant). -/
def variantsMatch (output : String) (expectedValue : PyVal) : Bool :=
  checkVariants.any (fun cv => pyEq (.str (cv output)) expectedValue)

/-- Mirrors `check_output(mod, testName, expectedVarname, output,
streamName)` in `testing.py`. With a declared expectation, a declared
string-valued `TEST_DIR` is first replaced by `"%TESTDIR%"` in the
actual output (a non-string `TEST_DIR` would raise in `str.replace`
and is outside the embedding); a `Grep` expectation is passed to
`re.search`; a `JSONFilter` expectation rewrites the output through
`applyFilter` (a decode error fails the check) and replaces the
expected value by the filter's stored text; any remaining expected
value is compared through the four newline variants. With no declared
expectation the check passes exactly when the output is empty. The
mismatch reports it prints are advisory and not modelled. -/
def check_output (mod : Module) (expectedVarname : String) (output : String) : Bool :=
  match lookupSym mod expectedVarname with
  | some expectedValue =>
    let output := match lookupSym mod "TEST_DIR" with
      | some (.str testDir) => output.replace testDir "%TESTDIR%"
      | _ => output
    match expectedValue with
    | .grep searchVal => reSearch searchVal output
    | .jsonFilter remove text =>
      (match applyFilter remove output with
       | some filtered => variantsMatch filtered (.str text)
       | Option.none => false)
    | _ => variantsMatch output expectedValue
  | Option.none => output == ""

/-- Mirrors `check_result(mod, testName, expectedVarname, testResult)`
in `testing.py`: with a declared expectation the check is Python
equality; with none, the result must be truthy. -/
def check_result (mod : Module) (expectedVarname : String) (testResult : PyVal) : Bool :=
  match lookupSym mod expectedVarname with
  | some expectedValue => pyEq testResult expectedValue
  | Option.none => pyTruthy testResult

/-- Mirrors `check_code(mod, testName, expectedVarname, code)` in
`testing.py`: with a declared expectation the check is Python equality
against the exit code; with none, the code must be zero. -/
def check_code (mod : Module) (expectedVarname : String) (code : Int) : Bool :=
  match lookupSym mod expectedVarname with
  | some expectedValue => pyEq (.int code) expectedValue
  | Option.none => code == 0

/-! The output-capture mechanism of `testing.py`, seen from the thread
that runs one test: the process-wide `sys.stdout`/`sys.stderr` pair,
the global `redirect` variable, and this thread's reentrant hold count
on `redirect_lock`. Stream identities distinguish the original streams
from the in-memory buffers that successive `Redirect` objects create
(`nextId` numbers the buffers). The cross-thread behaviour of
`redirect_lock` is modelled separately for the scheduler claim. -/

inductive Stream where
  | realOut
  | realErr
  | fakeOut (id : Nat)
  | fakeErr (id : Nat)
deriving DecidableEq, Repr

/-- Mirrors the `Redirect` object: the streams saved as
`self.real_stdout`/`self.real_stderr` (whatever `sys.stdout` and
`sys.stderr` held at construction time) and the buffer ids of
`self.fake_stdout`/`self.fake_stderr`. -/
structure Redirect where
  real_stdout : Stream
  real_stderr : Stream
  fake_stdout : Nat
  fake_stderr : Nat
deriving DecidableEq, Repr

structure SysState where
  stdout : Stream
  stderr : Stream
  redirect : Option Redirect
  lockHeld : Nat
  nextId : Nat
deriving DecidableEq, Repr

/-- The state at interpreter start: real streams installed, no
`Redirect` object, lock not held. -/
def initSysState : SysState :=
  { stdout := .realOut, stderr := .realErr, redirect := Option.none,
    lockHeld := 0, nextId := 0 }

/-- Mirrors `redirect_output()` in `testing.py`: acquire
`redirect_lock` (reentrant, so `lockHeld` only increments) and install
a fresh `Redirect`, whose constructor saves the *current*
`sys.stdout`/`sys.stderr` and swaps in fresh buffers. The source
performs no check on the global `redirect`; the `Option` result (which
is always `some`) is the same failure type as `restore_output`, whose
`assert` can fire. -/
def redirect_output (st : SysState) : Option SysState :=
  let r : Redirect :=
    { real_stdout := st.stdout, real_stderr := st.stderr,
      fake_stdout := st.nextId, fake_stderr := st.nextId }
  some { stdout := .fakeOut st.nextId, stderr := .fakeErr st.nextId,
         redirect := some r, lockHeld := st.lockHeld + 1,
         nextId := st.nextId + 1 }

/-- Mirrors `restore_output()` in `testing.py`: `assert redirect is not
None` (an `AssertionError`, embedded as `Option.none`, when no capture
is active), then restore the saved streams, clear the global
`redirect` and release one hold on `redirect_lock`. Reading the
buffered content is modelled at the call sites, where the buffer
contents are known. -/
def restore_output (st : SysState) : Option SysState :=
  match st.redirect with
  | some r =>
    some { stdout := r.real_stdout, stderr := r.real_stderr,
           redirect := Option.none, lockHeld := st.lockHeld - 1,
           nextId := st.nextId }
  | Option.none => Option.none

/-! The in-process test invoker `run_test` of `testing.py`. -/

/-- The standardized line `run_test` prints when the test body raises;
`print` appends the newline. The print targets `sys.stderr`, which at
that moment is the capture buffer. -/
def excLine (modName testName cls msg : String) : String :=
  "Exception occurred during " ++ modName ++ "/" ++ testName ++ ": "
    ++ cls ++ ": " ++ msg ++ "\n"

/-- Stand-in for the text `traceback.print_exception` writes to the
real stderr when `-g` is enabled; the exact traceback rendering is
outside the embedding. -/
def tracebackText (cls msg : String) : String :=
  "Traceback: " ++ cls ++ ": " ++ msg ++ "\n"

/-- The observable effects of one `run_test` call. `capturedOutRaw` and
`capturedErrRaw` are the capture buffers' contents at restore time;
`out`/`errout` are those contents after debug-line culling, as handed
to `check_output`; `realOutText`/`realErrText` is what reached the real
streams (forwarded debug lines, plus the traceback when `-g` is
enabled and the body raised); `checkedResult` is the `testResult`
value handed to `check_result`. -/
structure RunTestOutcome where
  passed : Bool
  capturedOutRaw : String
  capturedErrRaw : String
  out : String
  errout : String
  realOutText : String
  realErrText : String
  checkedResult : PyVal
deriving DecidableEq, Repr

/-- Events of one `run_test` call, in execution order, for stating
where the capture is released relative to the expectation checks. -/
inductive TestEvent where
  | beginCapture
  | callBody
  | endCapture
  | checkResultEv
  | checkOutEv
  | checkErrEv
deriving DecidableEq, Repr

/-- Mirrors `run_test(mod, testName)` in `testing.py`. The test symbol
must be callable (`type_check` raises otherwise: `Option.none`).
Output is redirected; the body runs; a raised exception is caught, its
standardized line printed to the *redirected* stderr, and the result
set to `None`; output is restored; then the `result_`/`out_`/`err_`
expectations are checked (under `module_lock`, whose bookkeeping is
not modelled); with `-g` and an exception, the traceback goes to the
real stderr. The returned event list records execution order. -/
def run_test (debug : Bool) (mod : Module) (testName : String) (st : SysState) :
    Option (RunTestOutcome × SysState × List TestEvent) :=
  match lookupSym mod testName with
  | some (.func body) =>
    match redirect_output st with
    | Option.none => Option.none
    | some st1 =>
      let testResult :=
        match body.outcome with
        | .ret v => v
        | .exn _ _ => PyVal.none
      let capturedOutRaw := body.printsOut
      let capturedErrRaw := body.printsErr ++
        (match body.outcome with
         | .exn cls msg => excLine mod.name testName cls msg
         | .ret _ => "")
      match restore_output st1 with
      | Option.none => Option.none
      | some st2 =>
        let culledOut := cull_debug_text capturedOutRaw
        let culledErr := cull_debug_text capturedErrRaw
        let suffix := String.mk (testName.data.drop "test_".length)
        let r1 := check_result mod ("result_" ++ suffix) testResult
        let r2 := check_output mod ("out_" ++ suffix) culledOut.1
        let r3 := check_output mod ("err_" ++ suffix) culledErr.1
        let realErrTb :=
          match debug, body.outcome with
          | true, .exn cls msg => tracebackText cls msg
          | _, _ => ""
        some ({ passed := r1 && r2 && r3,
                capturedOutRaw := capturedOutRaw,
                capturedErrRaw := capturedErrRaw,
                out := culledOut.1, errout := culledErr.1,
                realOutText := String.join culledOut.2,
                realErrText := String.join culledErr.2 ++ realErrTb,
                checkedResult := testResult },
              st2,
              [.beginCapture, .callBody, .endCapture,
               .checkResultEv, .checkOutEv, .checkErrEv])
  | _ => Option.none

/-! The subprocess-based test invokers. Child-process execution is an
external effect; an oracle maps an argument list and an optional
standard-input text to the child's exit code and decoded streams. -/

structure ProcessResult where
  returncode : Int
  stdoutText : String
  stderrText : String
deriving DecidableEq, Repr

def ExecOracle := List String → Option String → ProcessResult

/-- Mirrors `check_process_result(mod, testName, testPrefix,
processResult, command)` in `testing.py`: cull debug lines from the
child's decoded stdout and stderr, then check the
`code_`/`out_`/`err_` expectations derived from the test name with its
kind marker stripped. -/
def check_process_result (mod : Module) (testName testPre : String)
    (pr : ProcessResult) : Bool :=
  let code := pr.returncode
  let out := (cull_debug_text pr.stdoutText).1
  let errout := (cull_debug_text pr.stderrText).1
  let suffix := String.mk (testName.data.drop testPre.length)
  let r1 := check_code mod ("code_" ++ suffix) code
  let r2 := check_output mod ("out_" ++ suffix) out
  let r3 := check_output mod ("err_" ++ suffix) errout
  r1 && r2 && r3

/-- Mirrors `run_subprocess(mod, testName, commandPrefix)` in
`testing.py`. The test symbol must be a list (`type_check` raises
otherwise: `Option.none`). With a command prefix, `commandPrefix +
args` builds a fresh list; without one, `args` aliases the list stored
in the module, so the debug-flag `args.append("-g")` mutates the
stored value — the returned `Module` is the dictionary after the call.
The model's argument lists hold only strings, so the `shlex.join`
`TypeError` branch cannot fire. Returns the verdict of
`check_process_result` on the oracle's result. -/
def run_subprocess (exec : ExecOracle) (debug : Bool) (mod : Module)
    (testName : String) (commandPre : Option (List String)) :
    Option (Bool × Module) :=
  match lookupSym mod testName with
  | some (.listStr stored) =>
    let based := match commandPre with
      | some p => p ++ stored
      | Option.none => stored
    let args := if debug then based ++ ["-g"] else based
    let mod2 := match commandPre with
      | Option.none => if debug then setSym mod testName (.listStr args) else mod
      | some _ => mod
    let pr := exec args Option.none
    some (check_process_result mod2 testName "run_" pr, mod2)
  | _ => Option.none

/-- Mirrors `run_batch(mod, testName, commandPrefix)` in `testing.py`.
A string-valued test symbol supplies only the stdin commands: the
command prefix must be a list (`type_check` raises on `None`:
`Option.none`) and must be nonempty (else an error is reported and the
test fails); `args` then aliases the command-prefix list, so the
debug-flag append mutates it — the returned prefix is its state after
the call. A pair-valued symbol `(args, commands)` behaves like
`run_subprocess` with stdin, mutating the stored pair's argument list
when no prefix is given. -/
def run_batch (exec : ExecOracle) (debug : Bool) (mod : Module)
    (testName : String) (commandPre : Option (List String)) :
    Option (Bool × Module × Option (List String)) :=
  match lookupSym mod testName with
  | some (.str commands) =>
    (match commandPre with
     | Option.none => Option.none
     | some p =>
       if p.isEmpty then some (false, mod, some p)
       else
         let args := if debug then p ++ ["-g"] else p
         let pr := exec args (some commands)
         some (check_process_result mod testName "batch_" pr, mod, some args))
  | some (.pairArgs storedArgs commands) =>
    let based := match commandPre with
      | some p => p ++ storedArgs
      | Option.none => storedArgs
    let args := if debug then based ++ ["-g"] else based
    let mod2 := match commandPre with
      | Option.none =>
        if debug then setSym mod testName (.pairArgs args commands) else mod
      | some _ => mod
    let pr := exec args (some commands)
    some (check_process_result mod2 testName "batch_" pr, mod2, commandPre)
  | _ => Option.none

/-! The module runner `run_module` of `testing.py`: iterates the
module's symbols in declaration order, dispatching on the
`test_`/`run_`/`batch_` name conventions, skipping names in the
module's `DISABLED` list, folding `global_options` additions into the
command prefix, and reporting one `(name, passed)` outcome per test
via `print_result`. -/

/-- Mirrors the `DISABLED` lookup: `getattr(mod, "DISABLED", [])`,
ignored unless it is a list. -/
def disabledOf (mod : Module) : List String :=
  match lookupSym mod "DISABLED" with
  | some (.listStr xs) => xs
  | _ => []

/-- The loop body of `run_module`, recursing over the symbol names of
the module dictionary (Python iterates the live dictionary's keys,
which never change during the loop) while threading the dictionary
(mutated by aliased debug-flag appends), the extended command prefix
and the capture state. Returns the reported `(name, passed)` list in
execution order. `Option.none` embeds an exception escaping the loop:
a symbol of the wrong type for its name convention, or
`extendedCommandPrefix.extend` on `None`. -/
def run_module_go (exec : ExecOracle) (debug : Bool) (disabled : List String) :
    List String → Module → Option (List String) → SysState →
    Option (List (String × Bool) × Module × Option (List String) × SysState)
  | [], mod, extPre, st => some ([], mod, extPre, st)
  | symName :: rest, mod, extPre, st =>
    if disabled.contains symName then
      run_module_go exec debug disabled rest mod extPre st
    else if symName == "global_options" then
      match extPre, lookupSym mod symName with
      | some p, some (.listStr additions) =>
        run_module_go exec debug disabled rest mod (some (p ++ additions)) st
      | _, _ => Option.none
    else if strStartsWith symName "test_" then
      match run_test debug mod symName st with
      | some (r, st2, _) =>
        (match run_module_go exec debug disabled rest mod extPre st2 with
         | some (reports, mod3, extPre3, st3) =>
           some ((symName, r.passed) :: reports, mod3, extPre3, st3)
         | Option.none => Option.none)
      | Option.none => Option.none
    else if strStartsWith symName "run_" then
      match run_subprocess exec debug mod symName extPre with
      | some (passed, mod2) =>
        (match run_module_go exec debug disabled rest mod2 extPre st with
         | some (reports, mod3, extPre3, st3) =>
           some ((symName, passed) :: reports, mod3, extPre3, st3)
         | Option.none => Option.none)
      | Option.none => Option.none
    else if strStartsWith symName "batch_" then
      match run_batch exec debug mod symName extPre with
      | some (passed, mod2, extPre2) =>
        (match run_module_go exec debug disabled rest mod2 extPre2 st with
         | some (reports, mod3, extPre3, st3) =>
           some ((symName, passed) :: reports, mod3, extPre3, st3)
         | Option.none => Option.none)
      | Option.none => Option.none
    else
      run_module_go exec debug disabled rest mod extPre st

/-- Mirrors `run_module(mod, packageName, results, commandPrefix)` in
`testing.py` (the per-module results bookkeeping is the fold
`tallyReports` below). -/
def run_module (exec : ExecOracle) (debug : Bool) (mod : Module)
    (commandPre : Option (List String)) (st : SysState) :
    Option (List (String × Bool) × Module × Option (List String) × SysState) :=
  run_module_go exec debug (disabledOf mod) (mod.dict.map Prod.fst) mod commandPre st

/-- The `results.add_failure()` / `results.add_success()` updates the
`run_module` loop applies after each `print_result`. -/
def tallyReports (reports : List (String × Bool)) (results : TestResults) : TestResults :=
  reports.foldl
    (fun res r => if r.2 then res.add_success else res.add_failure) results

/-- The test symbols `run_module` discovers in a module, in declaration
order: every name bearing one of the three kind markers that is not
disabled (the `global_options` marker bears none of them). -/
def discoveredTests (mod : Module) : List String :=
  (mod.dict.map Prod.fst).filter (fun symName =>
    !(disabledOf mod).contains symName && symName != "global_options" &&
      (strStartsWith symName "test_" || strStartsWith symName "run_" ||
       strStartsWith symName "batch_"))

/-! Cross-thread model of the capture lock. `run_modules` and
`run_packages` start module- and package-level worker threads, each of
which drives `run_test` calls: `redirect_output` acquires the global
reentrant `redirect_lock` before the test body runs, and
`restore_output` releases it before the bookkeeping (expectation
checks, result printing) continues. Threads are numbered; each is in
one protocol phase; the lock records its owning thread and reentrant
hold count, with `acquire` blocking (not enabled) while another thread
owns the lock. -/

inductive Phase where
  | idle
  | inBody
  | checking
  | finished
deriving DecidableEq, Repr

structure Sched where
  lockOwner : Option Nat
  lockCount : Nat
  phase : Nat → Phase

def Sched.init : Sched :=
  { lockOwner := Option.none, lockCount := 0, phase := fun _ => .idle }

/-- One interleaving step of the worker threads, restricted to the
capture protocol of `run_test`: `acquire` is `redirect_output` (enabled
only when the lock is free or already owned by the same thread — the
`RLock` semantics), `release` is `restore_output`, and `finish` is the
surrounding bookkeeping, which runs without the capture lock. -/
inductive SchedStep : Sched → Sched → Prop where
  | acquire (s : Sched) (t : Nat) :
      s.phase t = .idle →
      (s.lockOwner = Option.none ∨ s.lockOwner = some t) →
      SchedStep s
        { lockOwner := some t, lockCount := s.lockCount + 1,
          phase := fun u => if u = t then .inBody else s.phase u }
  | release (s : Sched) (t : Nat) :
      s.phase t = .inBody →
      s.lockOwner = some t →
      SchedStep s
        { lockOwner := if s.lockCount ≤ 1 then Option.none else some t,
          lockCount := s.lockCount - 1,
          phase := fun u => if u = t then .checking else s.phase u }
  | finish (s : Sched) (t : Nat) :
      s.phase t = .checking →
      SchedStep s
        { s with phase := fun u => if u = t then .finished else s.phase u }

def SchedReachable (s : Sched) : Prop :=
  Relation.ReflTransGen SchedStep Sched.init s

/-! Well-formedness of a module for `run_module`: each symbol bearing a
name convention holds a value of the type its dispatcher requires (the
Python `type_check` calls raise otherwise), and conventions that touch
the command prefix are only used when one is in effect (`hasPre`).
Under this condition `run_module` completes without an escaping
exception. -/

def symOK (hasPre : Bool) (disabled : List String) (mod : Module) (symName : String) : Bool :=
  disabled.contains symName ||
  (if symName == "global_options" then
    hasPre &&
      (match lookupSym mod symName with
       | some (.listStr _) => true
       | _ => false)
  else if strStartsWith symName "test_" then
    (match lookupSym mod symName with
     | some (.func _) => true
     | _ => false)
  else if strStartsWith symName "run_" then
    (match lookupSym mod symName with
     | some (.listStr _) => true
     | _ => false)
  else if strStartsWith symName "batch_" then
    (match lookupSym mod symName with
     | some (.str _) => hasPre
     | some (.pairArgs _ _) => true
     | _ => false)
  else true)

def namesOK (hasPre : Bool) (disabled : List String) (mod : Module) (names : List String) : Bool :=
  names.all (symOK hasPre disabled mod)

/-! Theorems: helper lemmas first, then one theorem per specification
claim (with its witness or counterexample). -/

theorem strAppendEmpty (s : String) : s ++ "" = s := by
  cases s with
  | mk l => exact congrArg String.mk (List.append_nil l)

/-- Invariant of the capture protocol: a thread whose test body is
executing (capture active) owns `redirect_lock`. -/
theorem schedBodyOwnsLock {s : Sched} (h : SchedReachable s) :
    ∀ t, s.phase t = .inBody → s.lockOwner = some t := by
  induction h with
  | refl =>
    intro t ht
    simp [Sched.init] at ht
  | tail _ hstep ih =>
    cases hstep with
    | acquire t h1 h2 =>
      intro u hu
      simp only at hu ⊢
      by_cases hut : u = t
      · simp [hut]
      · simp [hut] at hu
        rcases h2 with h2 | h2
        · exact absurd (ih u hu) (by simp [h2])
        · have hthis := ih u hu
          rw [h2] at hthis
          exact absurd (Option.some.inj hthis) (fun he => hut he.symm)
    | release t h1 h2 =>
      intro u hu
      simp only at hu ⊢
      by_cases hut : u = t
      · simp [hut] at hu
      · simp [hut] at hu
        have hthis := ih u hu
        rw [h2] at hthis
        exact absurd (Option.some.inj hthis) (fun he => hut he.symm)
    | finish t h1 =>
      intro u hu
      simp only at hu ⊢
      by_cases hut : u = t
      · simp [hut] at hu
      · simp [hut] at hu
        exact ih u hu

/-- C1: `summarize_results` combines any list of child `TestResults` into
a parent whose `total` is the sum of the children's totals, whose
`failures` is the sum of their failure counts, and whose `code` is the
maximum of their exit codes; in particular the children
`{total:3,failures:1,code:1}` and `{total:2,failures:0,code:0}` summarize
to `{total:5,failures:1,code:1}`, and zero children summarize to
`{total:0,failures:0,code:0}` rather than an error. -/
theorem C1_summarize_results_sums_totals_failures_max_code :
    (∀ (name : String) (r : TestResults) (rs : List TestResults),
      (summarize_results name (r :: rs)).total
          = ((r :: rs).map TestResults.total).sum
        ∧ (summarize_results name (r :: rs)).failures
          = ((r :: rs).map TestResults.failures).sum
        ∧ (summarize_results name (r :: rs)).code
          = pyMax r.code (rs.map TestResults.code))
    ∧ summarize_results "parent"
        [⟨"a", 1, 3, 1⟩, ⟨"b", 0, 2, 0⟩] = ⟨"parent", 1, 5, 1⟩
    ∧ summarize_results "parent" [] = ⟨"parent", 0, 0, 0⟩ := by
  refine ⟨fun name r rs => ?_, by decide, by decide⟩
  simp [summarize_results, TestResults.init]

/-- C2: for a declared literal-string output expectation (and no
`TEST_DIR` substitution in play), `check_output` passes exactly when
the actual output equals the expected value under one of the four
equality variants — identity, one trailing newline stripped from the
actual output, one leading newline added to it, or both combined — and
fails for every other difference (in particular case differences). -/
theorem C2_literal_expectation_four_newline_variants
    (mod : Module) (expectedVarname output e : String)
    (hdecl : lookupSym mod expectedVarname = some (.str e))
    (hdir : lookupSym mod "TEST_DIR" = Option.none) :
    check_output mod expectedVarname output = true ↔
      (output = e ∨ removesuffixNl output = e ∨
       "\n" ++ output = e ∨ removesuffixNl ("\n" ++ output) = e) := by
  simp [check_output, hdecl, hdir, variantsMatch, checkVariants, pyEq,
    idVariant, leadNlVariant, endNlVariant, sandwichNlVariant]

/-- Witness for C2 at a concrete input: the expectation `"hi"` accepts
the actual output `"hi\n"` through the trailing-newline variant. -/
theorem C2_literal_expectation_four_newline_variants_witness :
    check_output ⟨"m", [("out_t", PyVal.str "hi")]⟩ "out_t" "hi\n" = true :=
  (C2_literal_expectation_four_newline_variants
      ⟨"m", [("out_t", PyVal.str "hi")]⟩ "out_t" "hi\n" "hi"
      (by rfl) (by rfl)).mpr
    (Or.inr (Or.inl (by decide)))

/-- C4 counterexample: `JSONFilter.applyFilter` re-serializes with
`json.dumps(..., indent=2)` (pretty-printed), not compactly, so for
the expectation `JSONFilter({"id"}, '{"name":"x"}')` the actual output
`'{"name":"x","id":42}'` FAILS the check (the claim says it passes):
the filtered output re-serializes to `'{\n  "name": "x"\n}'`, which
matches the compact expected text under none of the four variants. -/
theorem C4_jsonfilter_counterexample :
    check_output
        ⟨"m", [("out_t", mkJSONFilter ["id"] "\x7b\"name\":\"x\"\x7d")]⟩
        "out_t" "\x7b\"name\":\"x\",\"id\":42\x7d" = false ∧
      applyFilter ["id"] "\x7b\"name\":\"x\",\"id\":42\x7d" =
        some "\x7b\n  \"name\": \"x\"\n\x7d" := by
  decide

/-- C4 amended: for a declared `JSONFilter` expectation (no `TEST_DIR`
in play, output inside the modelled JSON fragment — no floats,
exponents, `NaN`/`Infinity` constants or surrogate `\u` escapes),
`check_output` parses the actual output as JSON, recursively deletes
the filter's key set from every nested object, re-serializes the
result with 2-space-indent pretty-printing (`json.dumps`'s `indent=2`,
not compact), and passes exactly when that pretty-printed text equals
the filter's stored (whitespace-stripped) expected text under the
harness's four newline variants; malformed JSON is reported and the
check fails. -/
theorem C4_jsonfilter_pretty_printed_comparison
    (mod : Module) (expectedVarname output text : String)
    (remove : List String)
    (hdecl : lookupSym mod expectedVarname = some (.jsonFilter remove text))
    (hdir : lookupSym mod "TEST_DIR" = Option.none)
    (_hfrag : jsonInFragment output = true) :
    (∀ j, jsonLoads output = some j →
      (check_output mod expectedVarname output = true ↔
        variantsMatch (dumpsIndent 0 (filterJson remove j)) (.str text) = true)) ∧
    (jsonLoads output = Option.none →
      check_output mod expectedVarname output = false) := by
  constructor
  · intro j hj
    simp [check_output, hdecl, hdir, applyFilter, hj]
  · intro hj
    simp [check_output, hdecl, hdir, applyFilter, hj]

/-- Witness for C4 at a concrete input: with the expected text written
in the pretty-printed form, the filtered output
`'{"name":"x","id":42}'` passes. -/
theorem C4_jsonfilter_pretty_printed_comparison_witness :
    check_output
        ⟨"m", [("out_t", mkJSONFilter ["id"] "\x7b\n  \"name\": \"x\"\n\x7d")]⟩
        "out_t" "\x7b\"name\":\"x\",\"id\":42\x7d" = true :=
  ((C4_jsonfilter_pretty_printed_comparison
      ⟨"m", [("out_t", mkJSONFilter ["id"] "\x7b\n  \"name\": \"x\"\n\x7d")]⟩
      "out_t" "\x7b\"name\":\"x\",\"id\":42\x7d"
      "\x7b\n  \"name\": \"x\"\n\x7d" ["id"]
      (by rfl) (by rfl) (by decide)).1
    (.obj [("name", .str "x"), ("id", .num 42)]) (by rfl)).mpr (by decide)

/-- C5 counterexample: the standardized exception line is printed to
`sys.stderr` *while the capture is still active*, so it lands in the
captured stderr, not on the real error stream. For a raising test with
debug off, the text reaching the real stderr is empty (so it does not
contain the line), while the captured stderr ends with the line. -/
theorem C5_exception_line_counterexample :
    (run_test false
        ⟨"m", [("test_t", .func (.mk "" "" (.exn "ValueError" "boom")))]⟩
        "test_t" initSysState).map
        (fun x => (x.1.realErrText, x.1.capturedErrRaw)) =
      some ("", "Exception occurred during m/test_t: ValueError: boom\n") ∧
      containsSub "Exception occurred".data "".data = false := by
  decide

/-- C5 amended: when an in-process test body raises, `run_test` catches
the exception (it returns normally), prints the standardized
"Exception occurred during module/test: Type: message" line to the
*redirected* stderr — so the line appears in the captured stderr and is
then subject to the stderr expectation check — and treats the test as
having produced a `None` result; with debug off, only forwarded
debug-marked lines reach the real error stream. -/
theorem C5_exception_caught_logged_captured_none_result
    (debug : Bool) (mod : Module) (testName pOut pErr cls msg : String)
    (st : SysState)
    (hfn : lookupSym mod testName = some (.func (.mk pOut pErr (.exn cls msg)))) :
    (run_test debug mod testName st).map
        (fun x => (x.1.checkedResult, x.1.capturedErrRaw, x.1.errout)) =
      some (PyVal.none, pErr ++ excLine mod.name testName cls msg,
        (cull_debug_text (pErr ++ excLine mod.name testName cls msg)).1) ∧
    (run_test false mod testName st).map (fun x => x.1.realErrText) =
      some (String.join
        (cull_debug_text (pErr ++ excLine mod.name testName cls msg)).2) := by
  constructor
  · simp [run_test, hfn, redirect_output, restore_output,
      Body.printsOut, Body.printsErr, Body.outcome]
  · simp [run_test, hfn, redirect_output, restore_output,
      Body.printsOut, Body.printsErr, Body.outcome, strAppendEmpty]

/-- Witness for C5 at a concrete input: a raising test body with
debug off. -/
theorem C5_exception_caught_logged_captured_none_result_witness :
    ((run_test false ⟨"m", [("test_x", .func (.mk "" "" (.exn "KeyError" "k")))]⟩
        "test_x" initSysState).map
        (fun x => (x.1.checkedResult, x.1.capturedErrRaw, x.1.errout)) =
      some (PyVal.none, "" ++ excLine "m" "test_x" "KeyError" "k",
        (cull_debug_text ("" ++ excLine "m" "test_x" "KeyError" "k")).1)) ∧
    ((run_test false ⟨"m", [("test_x", .func (.mk "" "" (.exn "KeyError" "k")))]⟩
        "test_x" initSysState).map (fun x => x.1.realErrText) =
      some (String.join
        (cull_debug_text ("" ++ excLine "m" "test_x" "KeyError" "k")).2)) :=
  C5_exception_caught_logged_captured_none_result false
    ⟨"m", [("test_x", .func (.mk "" "" (.exn "KeyError" "k")))]⟩
    "test_x" "" "" "KeyError" "k" initSysState (by rfl)

/-- C7 counterexample: `redirect_output` performs no check of the
global `redirect`. Beginning a capture while one is already active
(same thread, so the reentrant lock does not block) does not fail: it
succeeds and silently replaces the active capture, saving the first
capture's buffers as the new capture's "real" streams. -/
theorem C7_begin_counterexample :
    (redirect_output initSysState).bind redirect_output =
      some { stdout := .fakeOut 1, stderr := .fakeErr 1,
             redirect := some { real_stdout := .fakeOut 0,
                                real_stderr := .fakeErr 0,
                                fake_stdout := 1, fake_stderr := 1 },
             lockHeld := 2, nextId := 2 } ∧
      (redirect_output initSysState).bind redirect_output ≠ Option.none := by
  decide

/-- C7 amended: `redirect_output` never fails: from any state — in
particular with a capture already active — it succeeds, installing a
fresh capture that records the current (possibly already fake) streams
as its originals; the invariant assertion lives in `restore_output`,
which fails fatally when *no* capture is active. Cross-thread, a
second `begin` blocks on `redirect_lock` instead (scheduler model). -/
theorem C7_begin_never_fails_restore_asserts (st : SysState) :
    (∀ st', redirect_output st = some st' →
      st'.redirect = some { real_stdout := st.stdout, real_stderr := st.stderr,
                            fake_stdout := st.nextId, fake_stderr := st.nextId }
        ∧ st'.lockHeld = st.lockHeld + 1) ∧
    redirect_output st ≠ Option.none ∧
    (st.redirect = Option.none → restore_output st = Option.none) := by
  refine ⟨?_, by simp [redirect_output], ?_⟩
  · intro st' h
    simp [redirect_output] at h
    simp [← h]
  · intro h
    simp [restore_output, h]

/-- Witness for C7 at a concrete input: beginning from the initial
state installs the capture of the real streams, and restoring without
an active capture hits the assertion. -/
theorem C7_begin_never_fails_restore_asserts_witness :
    ((⟨.fakeOut 0, .fakeErr 0,
        some ⟨.realOut, .realErr, 0, 0⟩, 1, 1⟩ : SysState).redirect =
        some { real_stdout := .realOut, real_stderr := .realErr,
               fake_stdout := 0, fake_stderr := 0 }
      ∧ (⟨.fakeOut 0, .fakeErr 0,
          some ⟨.realOut, .realErr, 0, 0⟩, 1, 1⟩ : SysState).lockHeld = 0 + 1) ∧
    restore_output initSysState = Option.none :=
  ⟨(C7_begin_never_fails_restore_asserts initSysState).1
      ⟨.fakeOut 0, .fakeErr 0, some ⟨.realOut, .realErr, 0, 0⟩, 1, 1⟩ (by rfl),
   (C7_begin_never_fails_restore_asserts initSysState).2.2 (by rfl)⟩

/-- C9 counterexample: with the debug flag enabled and no command
prefix, `run_subprocess`'s `args.append("-g")` mutates the argument
list stored in the test module: after the call the stored value is
`["prog", "-g"]`, not the original `["prog"]`. -/
theorem C9_stored_args_mutated_counterexample :
    (run_subprocess (fun _ _ => ⟨0, "", ""⟩) true
        ⟨"m", [("run_t", PyVal.listStr ["prog"])]⟩ "run_t" Option.none).map
        (fun x => lookupSym x.2 "run_t") =
      some (some (PyVal.listStr ["prog", "-g"])) ∧
      (some (PyVal.listStr ["prog", "-g"]) : Option PyVal) ≠
        some (PyVal.listStr ["prog"]) := by
  decide

/-- C9 amended: executing a `run_*` or `batch_*` test leaves the
argument list stored in the module unchanged whenever the debug flag
is off or a command prefix is in effect (the prefix concatenation
builds a fresh list); but with debug enabled and no command prefix,
`args` aliases the stored list and the appended debug flag mutates the
stored value, which becomes the original list with `"-g"` appended. -/
theorem C9_stored_args_mutation_conditions :
    (∀ (exec : ExecOracle) (debug : Bool) (mod : Module)
        (testName : String) (stored p : List String),
      lookupSym mod testName = some (.listStr stored) →
      (run_subprocess exec debug mod testName (some p)).map Prod.snd = some mod) ∧
    (∀ (exec : ExecOracle) (mod : Module) (testName : String)
        (stored : List String) (pre : Option (List String)),
      lookupSym mod testName = some (.listStr stored) →
      (run_subprocess exec false mod testName pre).map Prod.snd = some mod) ∧
    (∀ (exec : ExecOracle) (mod : Module) (testName : String)
        (stored : List String),
      lookupSym mod testName = some (.listStr stored) →
      (run_subprocess exec true mod testName Option.none).map Prod.snd =
        some (setSym mod testName (.listStr (stored ++ ["-g"])))) ∧
    (∀ (exec : ExecOracle) (mod : Module) (testName : String)
        (args : List String) (commands : String),
      lookupSym mod testName = some (.pairArgs args commands) →
      (run_batch exec true mod testName Option.none).map (fun x => x.2.1) =
        some (setSym mod testName (.pairArgs (args ++ ["-g"]) commands))) := by
  refine ⟨?_, ?_, ?_, ?_⟩
  · intro exec debug mod testName stored p h
    simp [run_subprocess, h]
  · intro exec mod testName stored pre h
    cases pre <;> simp [run_subprocess, h]
  · intro exec mod testName stored h
    simp [run_subprocess, h]
  · intro exec mod testName args commands h
    simp [run_batch, h]

/-- Witness for C9 at concrete inputs: with a command prefix the stored
list survives a debug-enabled run unchanged; without one it gains
`"-g"`. -/
theorem C9_stored_args_mutation_conditions_witness :
    ((run_subprocess (fun _ _ => ⟨0, "", ""⟩) true
        ⟨"m", [("run_t", PyVal.listStr ["prog"])]⟩ "run_t"
        (some ["python"])).map Prod.snd =
      some ⟨"m", [("run_t", PyVal.listStr ["prog"])]⟩) ∧
    ((run_subprocess (fun _ _ => ⟨0, "", ""⟩) true
        ⟨"m", [("run_t", PyVal.listStr ["prog"])]⟩ "run_t"
        Option.none).map Prod.snd =
      some (setSym ⟨"m", [("run_t", PyVal.listStr ["prog"])]⟩ "run_t"
        (PyVal.listStr (["prog"] ++ ["-g"])))) :=
  ⟨C9_stored_args_mutation_conditions.1 (fun _ _ => ⟨0, "", ""⟩) true
      ⟨"m", [("run_t", PyVal.listStr ["prog"])]⟩ "run_t" ["prog"] ["python"]
      (by rfl),
   C9_stored_args_mutation_conditions.2.2.1 (fun _ _ => ⟨0, "", ""⟩)
      ⟨"m", [("run_t", PyVal.listStr ["prog"])]⟩ "run_t" ["prog"] (by rfl)⟩

/-- C10: for every in-process test body — returning or raising —
`run_test` restores the real streams and deactivates the capture
(releasing the capture lock) before any expectation check runs: the
event order places `endCapture` before all three check events, and at
exit the capture is inactive, the lock hold count is back to its entry
value, and the entry streams are reinstalled; with the capture
inactive at entry it is therefore inactive at exit as well. -/
theorem C10_capture_restored_before_checks
    (debug : Bool) (mod : Module) (testName : String) (body : Body)
    (st : SysState)
    (hfn : lookupSym mod testName = some (.func body))
    (_hentry : st.redirect = Option.none) :
    (run_test debug mod testName st).map (fun x => x.2.2) =
      some [.beginCapture, .callBody, .endCapture,
            .checkResultEv, .checkOutEv, .checkErrEv] ∧
    (run_test debug mod testName st).map
        (fun x => (x.2.1.redirect, x.2.1.lockHeld, x.2.1.stdout, x.2.1.stderr)) =
      some (Option.none, st.lockHeld, st.stdout, st.stderr) := by
  constructor <;> simp [run_test, hfn, redirect_output, restore_output]

/-- Witness for C10 at a concrete input: a returning test body starting
from the initial (inactive) state. -/
theorem C10_capture_restored_before_checks_witness :
    ((run_test false ⟨"m", [("test_ok", .func (.mk "" "" (.ret (.bool true))))]⟩
        "test_ok" initSysState).map (fun x => x.2.2) =
      some [.beginCapture, .callBody, .endCapture,
            .checkResultEv, .checkOutEv, .checkErrEv]) ∧
    ((run_test false ⟨"m", [("test_ok", .func (.mk "" "" (.ret (.bool true))))]⟩
        "test_ok" initSysState).map
        (fun x => (x.2.1.redirect, x.2.1.lockHeld, x.2.1.stdout, x.2.1.stderr)) =
      some (Option.none, initSysState.lockHeld, initSysState.stdout,
        initSysState.stderr)) :=
  C10_capture_restored_before_checks false
    ⟨"m", [("test_ok", .func (.mk "" "" (.ret (.bool true))))]⟩
    "test_ok" (.mk "" "" (.ret (.bool true))) initSysState (by rfl) (by rfl)

theorem lookupSym_setSym (mod : Module) (k : String) (v : PyVal) (n : String) :
    lookupSym (setSym mod k v) n =
      if n = k then (lookupSym mod n).map (fun _ => v)
      else lookupSym mod n := by
  obtain ⟨nm, dict⟩ := mod
  induction dict with
  | nil => by_cases h : n = k <;> simp [lookupSym, setSym, h]
  | cons kv rest ih =>
    obtain ⟨key, val⟩ := kv
    simp only [lookupSym, setSym, List.map_cons, List.find?_cons] at ih ⊢
    by_cases hkk : key = k
    · subst hkk
      by_cases hkn : key = n
      · subst hkn
        simp [List.find?_cons]
      · simp only [beq_self_eq_true, if_true, List.find?_cons]
        have hnk : (key == n) = false := by simp [hkn]
        simp only [hnk, Bool.false_eq_true, if_false]
        by_cases hn : n = key
        · exact absurd hn.symm hkn
        · simpa [setSym, lookupSym] using ih
    · have hkk' : (key == k) = false := by simp [hkk]
      simp only [hkk', Bool.false_eq_true, if_false]
      by_cases hkn : key = n
      · subst hkn
        simp [List.find?_cons, hkk]
      · have hkn' : (key == n) = false := by simp [hkn]
        simp only [List.find?_cons, hkn', Bool.false_eq_true, if_false]
        simpa [setSym, lookupSym] using ih

theorem symOK_setSym_listStr (hp : Bool) (d : List String) (mod : Module)
    (k : String) (xs ys : List String) (n : String)
    (hk : lookupSym mod k = some (.listStr xs)) :
    symOK hp d (setSym mod k (.listStr ys)) n = symOK hp d mod n := by
  unfold symOK
  rw [lookupSym_setSym]
  by_cases hnk : n = k
  · rw [if_pos hnk, hnk, hk]
    rfl
  · rw [if_neg hnk]

theorem symOK_setSym_pairArgs (hp : Bool) (d : List String) (mod : Module)
    (k : String) (xs ys : List String) (c1 c2 : String) (n : String)
    (hk : lookupSym mod k = some (.pairArgs xs c1)) :
    symOK hp d (setSym mod k (.pairArgs ys c2)) n = symOK hp d mod n := by
  unfold symOK
  rw [lookupSym_setSym]
  by_cases hnk : n = k
  · rw [if_pos hnk, hnk, hk]
    rfl
  · rw [if_neg hnk]

theorem namesOK_setSym_listStr (hp : Bool) (d : List String) (mod : Module)
    (k : String) (xs ys : List String) (names : List String)
    (hk : lookupSym mod k = some (.listStr xs)) :
    namesOK hp d (setSym mod k (.listStr ys)) names = namesOK hp d mod names := by
  induction names with
  | nil => rfl
  | cons n rest ih =>
    simp only [namesOK, List.all_cons] at ih ⊢
    rw [symOK_setSym_listStr hp d mod k xs ys n hk, ih]

theorem namesOK_setSym_pairArgs (hp : Bool) (d : List String) (mod : Module)
    (k : String) (xs ys : List String) (c1 c2 : String) (names : List String)
    (hk : lookupSym mod k = some (.pairArgs xs c1)) :
    namesOK hp d (setSym mod k (.pairArgs ys c2)) names = namesOK hp d mod names := by
  induction names with
  | nil => rfl
  | cons n rest ih =>
    simp only [namesOK, List.all_cons] at ih ⊢
    rw [symOK_setSym_pairArgs hp d mod k xs ys c1 c2 n hk, ih]

theorem run_test_isSome (debug : Bool) (mod : Module) (testName : String)
    (st : SysState) (body : Body)
    (hfn : lookupSym mod testName = some (.func body)) :
    (run_test debug mod testName st).isSome = true := by
  simp [run_test, hfn, redirect_output, restore_output]

theorem run_subprocess_characterize (exec : ExecOracle) (debug : Bool)
    (mod : Module) (testName : String) (pre : Option (List String))
    (stored : List String)
    (h : lookupSym mod testName = some (.listStr stored)) :
    ∃ b mod2, run_subprocess exec debug mod testName pre = some (b, mod2) ∧
      ∀ hp d names, namesOK hp d mod2 names = namesOK hp d mod names := by
  cases pre with
  | some p =>
    simp only [run_subprocess, h]
    exact ⟨_, _, rfl, fun _ _ _ => rfl⟩
  | none =>
    cases debug with
    | false =>
      simp only [run_subprocess, h]
      exact ⟨_, _, rfl, fun _ _ _ => rfl⟩
    | true =>
      simp only [run_subprocess, h]
      refine ⟨_, _, rfl, ?_⟩
      intro hp d names
      simp only [if_true]
      exact namesOK_setSym_listStr hp d mod testName stored _ names h

theorem run_batch_str_characterize (exec : ExecOracle) (debug : Bool)
    (mod : Module) (testName : String) (p : List String) (commands : String)
    (h : lookupSym mod testName = some (.str commands)) :
    ∃ b pre2, run_batch exec debug mod testName (some p) =
      some (b, mod, some pre2) := by
  cases hp : p.isEmpty with
  | true =>
    simp only [run_batch, h, hp]
    exact ⟨_, _, rfl⟩
  | false =>
    simp only [run_batch, h, hp]
    exact ⟨_, _, rfl⟩

theorem run_batch_pair_characterize (exec : ExecOracle) (debug : Bool)
    (mod : Module) (testName : String) (pre : Option (List String))
    (args : List String) (commands : String)
    (h : lookupSym mod testName = some (.pairArgs args commands)) :
    ∃ b mod2, run_batch exec debug mod testName pre = some (b, mod2, pre) ∧
      ∀ hp d names, namesOK hp d mod2 names = namesOK hp d mod names := by
  cases pre with
  | some p =>
    simp only [run_batch, h]
    exact ⟨_, _, rfl, fun _ _ _ => rfl⟩
  | none =>
    cases debug with
    | false =>
      simp only [run_batch, h]
      exact ⟨_, _, rfl, fun _ _ _ => rfl⟩
    | true =>
      simp only [run_batch, h]
      refine ⟨_, _, rfl, ?_⟩
      intro hp d names
      simp only [if_true]
      exact namesOK_setSym_pairArgs hp d mod testName args _ commands _ names h

/-- Unfolding equation for one step of the `run_module` loop. -/
theorem run_module_go_cons_eq (exec : ExecOracle) (debug : Bool)
    (disabled : List String) (n : String) (rest : List String) (mod : Module)
    (extPre : Option (List String)) (st : SysState) :
    run_module_go exec debug disabled (n :: rest) mod extPre st =
      (if disabled.contains n then
        run_module_go exec debug disabled rest mod extPre st
      else if n == "global_options" then
        match extPre, lookupSym mod n with
        | some p, some (.listStr additions) =>
          run_module_go exec debug disabled rest mod (some (p ++ additions)) st
        | _, _ => Option.none
      else if strStartsWith n "test_" then
        match run_test debug mod n st with
        | some (r, st2, _) =>
          (match run_module_go exec debug disabled rest mod extPre st2 with
           | some (reports, mod3, extPre3, st3) =>
             some ((n, r.passed) :: reports, mod3, extPre3, st3)
           | Option.none => Option.none)
        | Option.none => Option.none
      else if strStartsWith n "run_" then
        match run_subprocess exec debug mod n extPre with
        | some (passed, mod2) =>
          (match run_module_go exec debug disabled rest mod2 extPre st with
           | some (reports, mod3, extPre3, st3) =>
             some ((n, passed) :: reports, mod3, extPre3, st3)
           | Option.none => Option.none)
        | Option.none => Option.none
      else if strStartsWith n "batch_" then
        match run_batch exec debug mod n extPre with
        | some (passed, mod2, extPre2) =>
          (match run_module_go exec debug disabled rest mod2 extPre2 st with
           | some (reports, mod3, extPre3, st3) =>
             some ((n, passed) :: reports, mod3, extPre3, st3)
           | Option.none => Option.none)
        | Option.none => Option.none
      else
        run_module_go exec debug disabled rest mod extPre st) := by
  rfl

/-- The filter `run_module` effectively applies to the symbol names:
kept exactly when enabled and bearing one of the three kind markers. -/
theorem run_module_go_runs_all (exec : ExecOracle) (debug : Bool)
    (disabled : List String) :
    ∀ (names : List String) (mod : Module) (extPre : Option (List String))
      (st : SysState),
      namesOK extPre.isSome disabled mod names = true →
      ∃ reports mod2 extPre2 st2,
        run_module_go exec debug disabled names mod extPre st =
          some (reports, mod2, extPre2, st2) ∧
        reports.map Prod.fst = names.filter (fun n =>
          !disabled.contains n && n != "global_options" &&
            (strStartsWith n "test_" || strStartsWith n "run_" ||
             strStartsWith n "batch_")) := by
  intro names
  induction names with
  | nil =>
    intro mod extPre st _
    exact ⟨[], mod, extPre, st, rfl, rfl⟩
  | cons n rest ih =>
    intro mod extPre st h
    simp only [namesOK, List.all_cons, Bool.and_eq_true] at h
    obtain ⟨h1, h2⟩ := h
    have h2' : namesOK extPre.isSome disabled mod rest = true := h2
    by_cases hdis : disabled.contains n = true
    · obtain ⟨reports, mod2, extPre2, st2, heq, hmap⟩ := ih mod extPre st h2'
      refine ⟨reports, mod2, extPre2, st2, ?_, ?_⟩
      · rw [run_module_go_cons_eq, if_pos hdis]
        exact heq
      · have hcond : (!disabled.contains n && n != "global_options" &&
            (strStartsWith n "test_" || strStartsWith n "run_" ||
             strStartsWith n "batch_")) = false := by
          rw [hdis]
          rfl
        simp only [List.filter_cons, hcond, Bool.false_eq_true, if_false]
        exact hmap
    · have hdisF : disabled.contains n = false := by
        revert hdis; cases disabled.contains n <;> simp
      simp only [symOK, hdisF, Bool.false_or] at h1
      by_cases hglob : n = "global_options"
      · subst hglob
        rw [if_pos (by rfl)] at h1
        rw [Bool.and_eq_true] at h1
        obtain ⟨hpre, hval⟩ := h1
        cases hex : extPre with
        | none => rw [hex] at hpre; simp at hpre
        | some p =>
          rw [hex] at h2'
          cases hlk : lookupSym mod "global_options" with
          | none => rw [hlk] at hval; simp at hval
          | some v =>
            cases v with
            | listStr additions =>
              obtain ⟨reports, mod2, extPre2, st2, heq, hmap⟩ :=
                ih mod (some (p ++ additions)) st h2'
              refine ⟨reports, mod2, extPre2, st2, ?_, ?_⟩
              · rw [run_module_go_cons_eq, if_neg hdis,
                  if_pos (by rfl), hlk]
                exact heq
              · have hcond : (!disabled.contains "global_options" &&
                    "global_options" != "global_options" &&
                    (strStartsWith "global_options" "test_" ||
                     strStartsWith "global_options" "run_" ||
                     strStartsWith "global_options" "batch_")) = false := by
                  simp
                simp only [List.filter_cons, hcond, Bool.false_eq_true, if_false]
                exact hmap
            | none => rw [hlk] at hval; simp at hval
            | bool b => rw [hlk] at hval; simp at hval
            | int m => rw [hlk] at hval; simp at hval
            | str s => rw [hlk] at hval; simp at hval
            | pairArgs a c => rw [hlk] at hval; simp at hval
            | grep s => rw [hlk] at hval; simp at hval
            | jsonFilter r t => rw [hlk] at hval; simp at hval
            | func b => rw [hlk] at hval; simp at hval
      · have hglob' : (n == "global_options") = false := by
          simpa using hglob
        rw [if_neg (by simp [hglob'])] at h1
        by_cases htest : strStartsWith n "test_" = true
        · rw [if_pos htest] at h1
          cases hlk : lookupSym mod n with
          | none => rw [hlk] at h1; simp at h1
          | some v =>
            cases v with
            | func body =>
              have hrt := run_test_isSome debug mod n st body hlk
              obtain ⟨x, hx⟩ := Option.isSome_iff_exists.mp hrt
              obtain ⟨r, st2', evs⟩ := x
              obtain ⟨reports, mod2, extPre2, st2, heq, hmap⟩ :=
                ih mod extPre st2' h2'
              refine ⟨(n, r.passed) :: reports, mod2, extPre2, st2, ?_, ?_⟩
              · rw [run_module_go_cons_eq, if_neg hdis,
                  if_neg (by simp [hglob']), if_pos htest]
                simp only [hx, heq]
              · have hcond : (!disabled.contains n && n != "global_options" &&
                    (strStartsWith n "test_" || strStartsWith n "run_" ||
                     strStartsWith n "batch_")) = true := by
                  rw [hdisF]; simp [bne, hglob', htest]
                simp only [List.filter_cons, hcond, if_true]
                simp [hmap]
            | none => rw [hlk] at h1; simp at h1
            | bool b => rw [hlk] at h1; simp at h1
            | int m => rw [hlk] at h1; simp at h1
            | str s => rw [hlk] at h1; simp at h1
            | listStr xs => rw [hlk] at h1; simp at h1
            | pairArgs a c => rw [hlk] at h1; simp at h1
            | grep s => rw [hlk] at h1; simp at h1
            | jsonFilter rr t => rw [hlk] at h1; simp at h1
        · have htestF : strStartsWith n "test_" = false := by
            revert htest; cases strStartsWith n "test_" <;> simp
          rw [if_neg htest] at h1
          by_cases hrun : strStartsWith n "run_" = true
          · rw [if_pos hrun] at h1
            cases hlk : lookupSym mod n with
            | none => rw [hlk] at h1; simp at h1
            | some v =>
              cases v with
              | listStr stored =>
                obtain ⟨b, modB, hsub, hpres⟩ :=
                  run_subprocess_characterize exec debug mod n extPre stored hlk
                have h2B : namesOK extPre.isSome disabled modB rest = true := by
                  rw [hpres]; exact h2'
                obtain ⟨reports, mod2, extPre2, st2, heq, hmap⟩ :=
                  ih modB extPre st h2B
                refine ⟨(n, b) :: reports, mod2, extPre2, st2, ?_, ?_⟩
                · rw [run_module_go_cons_eq, if_neg hdis,
                    if_neg (by simp [hglob']), if_neg htest, if_pos hrun]
                  simp only [hsub, heq]
                · have hcond : (!disabled.contains n && n != "global_options" &&
                      (strStartsWith n "test_" || strStartsWith n "run_" ||
                       strStartsWith n "batch_")) = true := by
                    rw [hdisF]; simp [bne, hglob', hrun]
                  simp only [List.filter_cons, hcond, if_true]
                  simp [hmap]
              | none => rw [hlk] at h1; simp at h1
              | bool b => rw [hlk] at h1; simp at h1
              | int m => rw [hlk] at h1; simp at h1
              | str s => rw [hlk] at h1; simp at h1
              | pairArgs a c => rw [hlk] at h1; simp at h1
              | grep s => rw [hlk] at h1; simp at h1
              | jsonFilter rr t => rw [hlk] at h1; simp at h1
              | func bd => rw [hlk] at h1; simp at h1
          · have hrunF : strStartsWith n "run_" = false := by
              revert hrun; cases strStartsWith n "run_" <;> simp
            rw [if_neg hrun] at h1
            by_cases hbatch : strStartsWith n "batch_" = true
            · rw [if_pos hbatch] at h1
              cases hlk : lookupSym mod n with
              | none => rw [hlk] at h1; simp at h1
              | some v =>
                cases v with
                | str commands =>
                  rw [hlk] at h1
                  have hpre : extPre.isSome = true := h1
                  cases hex : extPre with
                  | none => rw [hex] at hpre; simp at hpre
                  | some p =>
                    obtain ⟨b, pre2, hbat⟩ :=
                      run_batch_str_characterize exec debug mod n p commands hlk
                    rw [hex] at h2'
                    have h2B : namesOK (some pre2).isSome disabled mod rest
                        = true := h2'
                    obtain ⟨reports, mod2, extPre2, st2, heq, hmap⟩ :=
                      ih mod (some pre2) st h2B
                    refine ⟨(n, b) :: reports, mod2, extPre2, st2, ?_, ?_⟩
                    · rw [run_module_go_cons_eq, if_neg hdis,
                        if_neg (by simp [hglob']), if_neg htest, if_neg hrun,
                        if_pos hbatch]
                      simp only [hbat, heq]
                    · have hcond : (!disabled.contains n &&
                          n != "global_options" &&
                          (strStartsWith n "test_" || strStartsWith n "run_" ||
                           strStartsWith n "batch_")) = true := by
                        rw [hdisF]; simp [bne, hglob', hbatch]
                      simp only [List.filter_cons, hcond, if_true]
                      simp [hmap]
                | pairArgs args commands =>
                  obtain ⟨b, modB, hbat, hpres⟩ :=
                    run_batch_pair_characterize exec debug mod n extPre args
                      commands hlk
                  have h2B : namesOK extPre.isSome disabled modB rest = true := by
                    rw [hpres]; exact h2'
                  obtain ⟨reports, mod2, extPre2, st2, heq, hmap⟩ :=
                    ih modB extPre st h2B
                  refine ⟨(n, b) :: reports, mod2, extPre2, st2, ?_, ?_⟩
                  · rw [run_module_go_cons_eq, if_neg hdis,
                      if_neg (by simp [hglob']), if_neg htest, if_neg hrun,
                      if_pos hbatch]
                    simp only [hbat, heq]
                  · have hcond : (!disabled.contains n &&
                        n != "global_options" &&
                        (strStartsWith n "test_" || strStartsWith n "run_" ||
                         strStartsWith n "batch_")) = true := by
                      rw [hdisF]; simp [bne, hglob', hbatch]
                    simp only [List.filter_cons, hcond, if_true]
                    simp [hmap]
                | none => rw [hlk] at h1; simp at h1
                | bool bb => rw [hlk] at h1; simp at h1
                | int m => rw [hlk] at h1; simp at h1
                | listStr xs => rw [hlk] at h1; simp at h1
                | grep s => rw [hlk] at h1; simp at h1
                | jsonFilter rr t => rw [hlk] at h1; simp at h1
                | func bd => rw [hlk] at h1; simp at h1
            · have hbatchF : strStartsWith n "batch_" = false := by
                revert hbatch; cases strStartsWith n "batch_" <;> simp
              obtain ⟨reports, mod2, extPre2, st2, heq, hmap⟩ :=
                ih mod extPre st h2'
              refine ⟨reports, mod2, extPre2, st2, ?_, ?_⟩
              · rw [run_module_go_cons_eq, if_neg hdis,
                  if_neg (by simp [hglob']), if_neg htest, if_neg hrun,
                  if_neg hbatch]
                exact heq
              · have hcond : (!disabled.contains n && n != "global_options" &&
                    (strStartsWith n "test_" || strStartsWith n "run_" ||
                     strStartsWith n "batch_")) = false := by
                  rw [htestF, hrunF, hbatchF]
                  simp
                simp only [List.filter_cons, hcond, Bool.false_eq_true, if_false]
                exact hmap

/-- C6 counterexample: a raising in-process test is NOT always reported
as failed. If the module declares `result_t = None` (matching the
`None` the handler substitutes) and `err_t = Grep("Exception
occurred")` (matching the logged line in the captured stderr), the
raising test passes. -/
theorem C6_raising_test_reported_passed_counterexample :
    (run_test false
        ⟨"m", [("test_t", .func (.mk "" "" (.exn "ValueError" "boom"))),
               ("result_t", PyVal.none),
               ("err_t", PyVal.grep "Exception occurred")]⟩
        "test_t" initSysState).map (fun x => x.1.passed) = some true := by
  decide

/-- C6 amended: an in-process test whose body raises is reported as
failed whenever the module declares no `result_` expectation for it
(the substituted `None` result fails the truthiness check); and in
every case the module's execution continues: for any well-formed
module, `run_module` reports an outcome for *every* discovered test
symbol, in declaration order, whatever the test bodies do — so the
tests after a raising one still run. -/
theorem C6_raising_test_fails_and_module_continues :
    (∀ (debug : Bool) (mod : Module) (testName pOut pErr cls msg : String)
        (st : SysState),
      lookupSym mod testName = some (.func (.mk pOut pErr (.exn cls msg))) →
      lookupSym mod
          ("result_" ++ String.mk (testName.data.drop "test_".length)) =
        Option.none →
      (run_test debug mod testName st).map (fun x => x.1.passed) =
        some false) ∧
    (∀ (exec : ExecOracle) (debug : Bool) (mod : Module)
        (commandPre : Option (List String)) (st : SysState),
      namesOK commandPre.isSome (disabledOf mod) mod
          (mod.dict.map Prod.fst) = true →
      (run_module exec debug mod commandPre st).map
          (fun x => x.1.map Prod.fst) =
        some (discoveredTests mod)) := by
  constructor
  · intro debug mod testName pOut pErr cls msg st hfn hres
    simp [run_test, hfn, redirect_output, restore_output, check_result, hres,
      pyTruthy, Body.outcome, Body.printsOut, Body.printsErr]
  · intro exec debug mod commandPre st h
    obtain ⟨reports, mod2, extPre2, st2, heq, hmap⟩ :=
      run_module_go_runs_all exec debug (disabledOf mod)
        (mod.dict.map Prod.fst) mod commandPre st h
    simp only [run_module, heq, Option.map_some, discoveredTests]
    exact congrArg some hmap

/-- Witness for C6 at concrete inputs: a raising test with no declared
result expectation fails, and a module whose first test raises still
reports both of its tests in order. -/
theorem C6_raising_test_fails_and_module_continues_witness :
    ((run_test false
        ⟨"m", [("test_t", .func (.mk "" "" (.exn "ValueError" "boom")))]⟩
        "test_t" initSysState).map (fun x => x.1.passed) = some false) ∧
    ((run_module (fun _ _ => ⟨0, "", ""⟩) false
        ⟨"m", [("test_a", .func (.mk "" "" (.exn "ValueError" "boom"))),
               ("test_b", .func (.mk "" "" (.ret (.bool true))))]⟩
        Option.none initSysState).map (fun x => x.1.map Prod.fst) =
      some (discoveredTests
        ⟨"m", [("test_a", .func (.mk "" "" (.exn "ValueError" "boom"))),
               ("test_b", .func (.mk "" "" (.ret (.bool true))))]⟩)) :=
  ⟨C6_raising_test_fails_and_module_continues.1 false
      ⟨"m", [("test_t", .func (.mk "" "" (.exn "ValueError" "boom")))]⟩
      "test_t" "" "" "ValueError" "boom" initSysState (by rfl) (by rfl),
   C6_raising_test_fails_and_module_continues.2 (fun _ _ => ⟨0, "", ""⟩) false
      ⟨"m", [("test_a", .func (.mk "" "" (.exn "ValueError" "boom"))),
             ("test_b", .func (.mk "" "" (.ret (.bool true))))]⟩
      Option.none initSysState (by decide)⟩

/-- C8: under the concurrent scheduler model, no two distinct worker
threads are ever simultaneously inside a test body (where the capture
is active): the capture lock held from `redirect_output` to
`restore_output` serializes the bodies, while the `checking` phase —
the surrounding bookkeeping — runs outside the lock and may overlap
freely. -/
theorem C8_no_two_bodies_with_capture_active {s : Sched}
    (h : SchedReachable s) (t1 t2 : Nat) (hne : t1 ≠ t2) :
    ¬(s.phase t1 = .inBody ∧ s.phase t2 = .inBody) := by
  rintro ⟨h1, h2⟩
  have o1 := schedBodyOwnsLock h t1 h1
  have o2 := schedBodyOwnsLock h t2 h2
  rw [o1] at o2
  exact hne (Option.some.inj o2)

/-- Witness for C8 at a concrete reachable state: after thread 0
acquires the lock and enters its test body, threads 0 and 1 are not
both inside a body. -/
theorem C8_no_two_bodies_with_capture_active_witness :
    ¬(({ lockOwner := some 0, lockCount := Sched.init.lockCount + 1,
         phase := fun u => if u = 0 then .inBody else Sched.init.phase u }
          : Sched).phase 0 = .inBody ∧
      ({ lockOwner := some 0, lockCount := Sched.init.lockCount + 1,
         phase := fun u => if u = 0 then .inBody else Sched.init.phase u }
          : Sched).phase 1 = .inBody) :=
  C8_no_two_bodies_with_capture_active
    (Relation.ReflTransGen.single
      (SchedStep.acquire Sched.init 0 (by rfl) (Or.inl (by rfl))))
    0 1 (by decide)

end RJTools
